import Mathlib

/-!
Verification of the mental-health survey scorer (`src/logic.cpp`).

The program reads ten command-line arguments, parses each as a base-10
integer, and computes a composite score where positions 4 and 8
(0-based) are reverse-coded.  Errors (wrong arity, unparsable argument,
out-of-range value) abort with exit code 1 and a message on stderr.

The definitions below are a shallow embedding of the C++ source:
`REVERSE_FLAGS` and `hitung_skor` mirror the scoring function, `stoi`
models `std::stoi` (with the `catch` in `main` folded into an `Option`),
and `runMain` mirrors `main`.  Out-of-bounds indexing into
`REVERSE_FLAGS` (undefined behaviour in C++) is modelled by `Option`:
`none` marks an execution that hits undefined behaviour.
-/

/-- The reverse-scoring mask: Q5 (index 4) and Q9 (index 8) are reverse
scored.  Mirrors the C++ constant `REVERSE_FLAGS`. -/
def REVERSE_FLAGS : List Bool :=
  [false, false, false, false, true,
   false, false, false, true, false]

/-- The loop of `hitung_skor`: walks the answers with index `i` and
accumulator `total`; returns `some (-1)` on the first out-of-range value
and `none` if `REVERSE_FLAGS[i]` would be accessed out of bounds
(undefined behaviour in the C++ source). -/
def hitung_skor_loop : List Int → Nat → Int → Option Int
  | [], _, total => some total
  | v :: rest, i, total =>
    if v < 0 ∨ 3 < v then some (-1)
    else
      (REVERSE_FLAGS.get? i).bind fun b =>
        hitung_skor_loop rest (i + 1) (total + (if b then 3 - v else v))

/-- Embedding of the C++ function `hitung_skor`. -/
def hitung_skor (jawaban : List Int) : Option Int :=
  hitung_skor_loop jawaban 0 0

/-- C++ `isspace` in the default locale (space, \t, \n, \v, \f, \r),
as skipped by `std::stoi`. -/
def cppIsSpace (c : Char) : Bool :=
  c = ' ' || c = '\t' || c = '\n' || c = Char.ofNat 11 || c = Char.ofNat 12 || c = '\r'

/-- Value of a list of decimal digits. -/
def digitsToNat (ds : List Char) : Nat :=
  ds.foldl (fun acc c => acc * 10 + (c.toNat - 48)) 0

def INT_MAX : Int := 2147483647

def INT_MIN : Int := -2147483648

/-- Model of `std::stoi(s)` as called in `main`: skip leading
whitespace, optional sign, longest digit prefix; `none` when no digits
are found (`std::invalid_argument`) or the value overflows a 32-bit
`int` (`std::out_of_range`) — both exceptions are caught by `main` and
treated as a parse failure. -/
def stoi (s : String) : Option Int :=
  let cs := s.toList.dropWhile cppIsSpace
  let signAndRest : Int × List Char :=
    match cs with
    | '-' :: r => (-1, r)
    | '+' :: r => (1, r)
    | r => (1, r)
  let ds := signAndRest.2.takeWhile Char.isDigit
  if ds = [] then none
  else
    let v : Int := signAndRest.1 * (digitsToNat ds : Int)
    if v < INT_MIN ∨ INT_MAX < v then none else some v

/-- The parse loop of `main`: converts the arguments left to right with
`stoi`, starting at 1-based position `i`; stops at the first failure,
reporting its position and literal text. -/
def parseArgsFrom : List String → Nat → Except (Nat × String) (List Int)
  | [], _ => .ok []
  | a :: r, i =>
    match stoi a with
    | none => .error (i, a)
    | some n =>
      match parseArgsFrom r (i + 1) with
      | .error e => .error e
      | .ok ns => .ok (n :: ns)

/-- The parse loop of `main` started at position 1 (as `i` runs from 1
to `argc - 1` in the source). -/
def parseArgs (args : List String) : Except (Nat × String) (List Int) :=
  parseArgsFrom args 1

/-- The stderr diagnostics `main` can emit. -/
inductive ErrMsg where
  | arity (received : Nat)
  | parse (pos : Nat) (lit : String)
  | outOfRange (v : Int)
  | internal
deriving DecidableEq

/-- Observable outcome of one run of the program: exit code, what is
printed to stdout (the score, or nothing), and the stderr message. -/
structure RunResult where
  exitCode : Nat
  stdout : Option Int
  stderrMsg : Option ErrMsg
deriving DecidableEq

/-- Embedding of `main`.  `args` is the argument list after the program
name (so `argc = args.length + 1`).  Returns `none` only if the run
would hit undefined behaviour inside `hitung_skor`. -/
def runMain (args : List String) : Option RunResult :=
  if args.length ≠ 10 then
    some ⟨1, none, some (.arity args.length)⟩
  else
    match parseArgs args with
    | .error (pos, lit) => some ⟨1, none, some (.parse pos lit)⟩
    | .ok jawaban =>
      match hitung_skor jawaban with
      | none => none
      | some total_skor =>
        if total_skor = -1 then
          match jawaban.find? (fun v => decide (v < 0 ∨ 3 < v)) with
          | some v => some ⟨1, none, some (.outOfRange v)⟩
          | none => some ⟨1, none, some .internal⟩
        else
          some ⟨0, some total_skor, none⟩

/-- The per-position contribution exactly as the specification words it:
`3 - v_i` if `i ∈ \x7b4,8\x7d`, else `v_i`. -/
def claimContribution (v : List Int) (i : Nat) : Int :=
  if i = 4 ∨ i = 8 then 3 - v.getD i 0 else v.getD i 0

/-- The score exactly as the specification words it: the sum over all
10 positions of `claimContribution`. -/
def claimScore (v : List Int) : Int :=
  ∑ i in Finset.range 10, claimContribution v i
lemma flags_get_eq : ∀ i : Nat, i < 10 → REVERSE_FLAGS.get? i = some (REVERSE_FLAGS.getD i false) := by
  intro i hi
  interval_cases i <;> rfl

/-- The running sum computed by the loop from index `i` on: each
element contributes `3 - v` when its flag is set, `v` otherwise. -/
def sumFrom : List Int → Nat → Int
  | [], _ => 0
  | v :: rest, i => (if REVERSE_FLAGS.getD i false then 3 - v else v) + sumFrom rest (i + 1)

lemma hitung_skor_loop_valid : ∀ (v : List Int) (i : Nat) (t : Int),
    (∀ x ∈ v, 0 ≤ x ∧ x ≤ 3) → i + v.length ≤ 10 →
    hitung_skor_loop v i t = some (t + sumFrom v i) := by
  intro v
  induction v with
  | nil => intro i t _ _; simp [hitung_skor_loop, sumFrom]
  | cons a r ih =>
    intro i t hall hlen
    have ha := hall a (List.mem_cons_self _ _)
    have hi : i < 10 := by simp only [List.length_cons] at hlen; omega
    rw [hitung_skor_loop, if_neg (by omega), flags_get_eq i hi, Option.some_bind,
      ih (i + 1) _ (fun x hx => hall x (List.mem_cons_of_mem _ hx))
        (by simp only [List.length_cons] at hlen; omega)]
    simp [sumFrom, add_assoc]
lemma sumFrom_bounds : ∀ (v : List Int) (i : Nat),
    (∀ x ∈ v, 0 ≤ x ∧ x ≤ 3) →
    0 ≤ sumFrom v i ∧ sumFrom v i ≤ 3 * (v.length : Int) := by
  intro v
  induction v with
  | nil => intro i _; simp [sumFrom]
  | cons a r ih =>
    intro i hall
    have ha := hall a (List.mem_cons_self _ _)
    have hr := ih (i + 1) (fun x hx => hall x (List.mem_cons_of_mem _ hx))
    rcases Bool.eq_false_or_eq_true (REVERSE_FLAGS.getD i false) with hb | hb <;>
      simp only [sumFrom, hb, Bool.false_eq_true, if_false, if_true, List.length_cons] <;>
      push_cast <;> omega

lemma hitung_skor_loop_bad : ∀ (v : List Int) (i : Nat) (t : Int),
    i + v.length ≤ 10 → (∃ x ∈ v, x < 0 ∨ 3 < x) →
    hitung_skor_loop v i t = some (-1) := by
  intro v
  induction v with
  | nil => intro i t _ hbad; simp at hbad
  | cons a r ih =>
    intro i t hlen hbad
    by_cases hA : a < 0 ∨ 3 < a
    · rw [hitung_skor_loop, if_pos hA]
    · have hi : i < 10 := by simp only [List.length_cons] at hlen; omega
      obtain ⟨x, hx, hxbad⟩ := hbad
      rcases List.mem_cons.mp hx with rfl | hxr
      · exact absurd hxbad hA
      · rw [hitung_skor_loop, if_neg hA, flags_get_eq i hi, Option.some_bind]
        exact ih (i + 1) _ (by simp only [List.length_cons] at hlen; omega) ⟨x, hxr, hxbad⟩

lemma hitung_skor_valid (v : List Int) (hlen : v.length ≤ 10)
    (hall : ∀ x ∈ v, 0 ≤ x ∧ x ≤ 3) :
    hitung_skor v = some (sumFrom v 0) := by
  simpa using hitung_skor_loop_valid v 0 0 hall (by omega)

lemma hitung_skor_bad (v : List Int) (hlen : v.length ≤ 10)
    (hbad : ∃ x ∈ v, x < 0 ∨ 3 < x) :
    hitung_skor v = some (-1) :=
  hitung_skor_loop_bad v 0 0 (by omega) hbad

lemma valid_or_bad (v : List Int) :
    (∀ x ∈ v, 0 ≤ x ∧ x ≤ 3) ∨ (∃ x ∈ v, x < 0 ∨ 3 < x) := by
  by_cases h : ∀ x ∈ v, 0 ≤ x ∧ x ≤ 3
  · exact Or.inl h
  · push_neg at h
    obtain ⟨x, hx, hxb⟩ := h
    exact Or.inr ⟨x, hx, by omega⟩

lemma hitung_skor_isSome (v : List Int) (hlen : v.length ≤ 10) :
    (hitung_skor v).isSome := by
  rcases valid_or_bad v with h | h
  · rw [hitung_skor_valid v hlen h]; rfl
  · rw [hitung_skor_bad v hlen h]; rfl
lemma parseArgsFrom_ok_length : ∀ (args : List String) (i : Nat) (vals : List Int),
    parseArgsFrom args i = .ok vals → vals.length = args.length := by
  intro args
  induction args with
  | nil => intro i vals h; simp [parseArgsFrom] at h; simp [h.symm]
  | cons a r ih =>
    intro i vals h
    rw [parseArgsFrom] at h
    cases hs : stoi a with
    | none => rw [hs] at h; exact absurd h (by simp)
    | some n =>
      rw [hs] at h
      cases hp : parseArgsFrom r (i + 1) with
      | error e => rw [hp] at h; exact absurd h (by simp)
      | ok ns =>
        rw [hp] at h
        simp only [Except.ok.injEq] at h
        subst h
        simp [ih (i + 1) ns hp]

lemma parseArgsFrom_err_of_bad : ∀ (args : List String) (i : Nat),
    (∃ a ∈ args, stoi a = none) →
    ∃ pos lit, parseArgsFrom args i = .error (pos, lit) ∧ stoi lit = none ∧
      args.getD (pos - i) "" = lit ∧ i ≤ pos ∧ pos < i + args.length := by
  intro args
  induction args with
  | nil => intro i hbad; simp at hbad
  | cons a r ih =>
    intro i hbad
    cases hs : stoi a with
    | none =>
      refine ⟨i, a, ?_, hs, ?_, le_refl i, by simp⟩
      · rw [parseArgsFrom, hs]
      · simp
    | some n =>
      have hbr : ∃ b ∈ r, stoi b = none := by
        obtain ⟨b, hb, hbn⟩ := hbad
        rcases List.mem_cons.mp hb with rfl | hbr
        · exact absurd hbn (by simp [hs])
        · exact ⟨b, hbr, hbn⟩
      obtain ⟨pos, lit, hperr, hlit, hget, hlo, hhi⟩ := ih (i + 1) hbr
      refine ⟨pos, lit, ?_, hlit, ?_, by omega, by simp; omega⟩
      · rw [parseArgsFrom, hs, hperr]
      · have : pos - i = (pos - (i + 1)) + 1 := by omega
        rw [this]
        simpa using hget

lemma find_first_bad : ∀ (l : List Int), (∃ x ∈ l, x < 0 ∨ 3 < x) →
    ∃ k v, l.find? (fun x => decide (x < 0 ∨ 3 < x)) = some v ∧
      k < l.length ∧ l.getD k 0 = v ∧ (v < 0 ∨ 3 < v) ∧
      ∀ j, j < k → 0 ≤ l.getD j 0 ∧ l.getD j 0 ≤ 3 := by
  intro l
  induction l with
  | nil => intro h; simp at h
  | cons a r ih =>
    intro hbad
    by_cases hA : a < 0 ∨ 3 < a
    · refine ⟨0, a, ?_, by simp, by simp, hA, by omega⟩
      rw [List.find?_cons_of_pos _ (by simpa using hA)]
    · have hbr : ∃ x ∈ r, x < 0 ∨ 3 < x := by
        obtain ⟨x, hx, hxb⟩ := hbad
        rcases List.mem_cons.mp hx with rfl | hxr
        · exact absurd hxb hA
        · exact ⟨x, hxr, hxb⟩
      obtain ⟨k, v, hfind, hk, hget, hvb, hfirst⟩ := ih hbr
      refine ⟨k + 1, v, ?_, by simp; omega, by simpa using hget, hvb, ?_⟩
      · rw [List.find?_cons_of_neg _ (by simpa using hA), hfind]
      · intro j hj
        cases j with
        | zero => simpa using (by omega : 0 ≤ a ∧ a ≤ 3)
        | succ j => simpa using hfirst j (by omega)
lemma exists_ten (v : List Int) (h : v.length = 10) :
    ∃ a0 a1 a2 a3 a4 a5 a6 a7 a8 a9,
      v = [a0, a1, a2, a3, a4, a5, a6, a7, a8, a9] := by
  cases v with
  | nil => simp at h
  | cons a0 t0 =>
  cases t0 with
  | nil => simp at h
  | cons a1 t1 =>
  cases t1 with
  | nil => simp at h
  | cons a2 t2 =>
  cases t2 with
  | nil => simp at h
  | cons a3 t3 =>
  cases t3 with
  | nil => simp at h
  | cons a4 t4 =>
  cases t4 with
  | nil => simp at h
  | cons a5 t5 =>
  cases t5 with
  | nil => simp at h
  | cons a6 t6 =>
  cases t6 with
  | nil => simp at h
  | cons a7 t7 =>
  cases t7 with
  | nil => simp at h
  | cons a8 t8 =>
  cases t8 with
  | nil => simp at h
  | cons a9 t9 =>
  cases t9 with
  | nil => exact ⟨a0, a1, a2, a3, a4, a5, a6, a7, a8, a9, rfl⟩
  | cons a10 t10 => simp at h

lemma sumFrom_eq_claimScore (v : List Int) (h : v.length = 10) :
    sumFrom v 0 = claimScore v := by
  obtain ⟨a0, a1, a2, a3, a4, a5, a6, a7, a8, a9, rfl⟩ := exists_ten v h
  simp [sumFrom, claimScore, claimContribution, REVERSE_FLAGS, Finset.sum_range_succ]
  ring
lemma runMain_shape (args : List String) (r : RunResult) (h : runMain args = some r) :
    (∃ n, r = ⟨1, none, some (.arity n)⟩) ∨
    (∃ pos lit, r = ⟨1, none, some (.parse pos lit)⟩) ∨
    (∃ v, r = ⟨1, none, some (.outOfRange v)⟩) ∨
    (∃ s, r = ⟨0, some s, none⟩ ∧ 0 ≤ s ∧ s ≤ 30) := by
  by_cases hlen : args.length = 10
  · cases hp : parseArgs args with
    | error e =>
      obtain ⟨pos, lit⟩ := e
      simp only [runMain, if_neg (show ¬args.length ≠ 10 by omega), hp,
        Option.some.injEq] at h
      exact Or.inr (Or.inl ⟨pos, lit, h.symm⟩)
    | ok vals =>
      have hvlen : vals.length = 10 := by
        rw [parseArgsFrom_ok_length args 1 vals hp, hlen]
      rcases valid_or_bad vals with hval | hbad
      · have hsk := hitung_skor_valid vals (by omega) hval
        have hb := sumFrom_bounds vals 0 hval
        rw [hvlen] at hb
        simp only [runMain, if_neg (show ¬args.length ≠ 10 by omega), hp, hsk,
          if_neg (show ¬sumFrom vals 0 = -1 by omega), Option.some.injEq] at h
        refine Or.inr (Or.inr (Or.inr ⟨sumFrom vals 0, h.symm, hb.1, ?_⟩))
        have h30 := hb.2
        norm_num at h30
        exact h30
      · have hsk := hitung_skor_bad vals (by omega) hbad
        obtain ⟨k, v, hfind, _⟩ := find_first_bad vals hbad
        simp only [runMain, if_neg (show ¬args.length ≠ 10 by omega), hp, hsk,
          if_true, hfind, Option.some.injEq] at h
        exact Or.inr (Or.inr (Or.inl ⟨v, h.symm⟩))
  · rw [runMain, if_pos hlen] at h
    simp only [Option.some.injEq] at h
    exact Or.inl ⟨args.length, h.symm⟩

/-- C3: for every invocation whose argument count after the program name
differs from 10, the program fails with an arity error reporting the
actual count received, exits with status 1, and writes nothing to
standard output. -/
theorem runMain_arity_error (args : List String) (h : args.length ≠ 10) :
    runMain args = some ⟨1, none, some (.arity args.length)⟩ := by
  rw [runMain, if_pos h]

theorem runMain_arity_error_witness :
    runMain ["0", "0", "0", "0", "0", "0", "0", "0", "0"] =
      some ⟨1, none, some (.arity 9)⟩ :=
  runMain_arity_error ["0", "0", "0", "0", "0", "0", "0", "0", "0"] (by decide)

/-- C4: with exactly 10 arguments, if any argument fails to parse as a
base-10 integer, the program fails with a parse error identifying the
1-based position and the offending literal text, exits with status 1,
and prints nothing to standard output. -/
theorem runMain_parse_error (args : List String) (hlen : args.length = 10)
    (hbad : ∃ a ∈ args, stoi a = none) :
    ∃ pos lit, runMain args = some ⟨1, none, some (.parse pos lit)⟩ ∧
      stoi lit = none ∧ args.getD (pos - 1) "" = lit ∧ 1 ≤ pos ∧ pos ≤ 10 := by
  obtain ⟨pos, lit, herr, hlit, hget, hlo, hhi⟩ := parseArgsFrom_err_of_bad args 1 hbad
  refine ⟨pos, lit, ?_, hlit, hget, hlo, by omega⟩
  have hp : parseArgs args = .error (pos, lit) := herr
  simp only [runMain, if_neg (show ¬args.length ≠ 10 by omega), hp]

theorem runMain_parse_error_witness :
    ∃ pos lit,
      runMain ["1", "2", "abc", "0", "0", "0", "0", "0", "0", "0"] =
        some ⟨1, none, some (.parse pos lit)⟩ ∧
      stoi lit = none ∧
      ["1", "2", "abc", "0", "0", "0", "0", "0", "0", "0"].getD (pos - 1) "" = lit ∧
      1 ≤ pos ∧ pos ≤ 10 :=
  runMain_parse_error ["1", "2", "abc", "0", "0", "0", "0", "0", "0", "0"]
    (by decide) ⟨"abc", by decide, by rfl⟩
lemma hitung_skor_eq_neg_one_iff (v : List Int) (hlen : v.length ≤ 10) :
    hitung_skor v = some (-1) ↔ ∃ x ∈ v, x < 0 ∨ 3 < x := by
  constructor
  · intro hm1
    rcases valid_or_bad v with h | h
    · exfalso
      rw [hitung_skor_valid v hlen h] at hm1
      have hb := (sumFrom_bounds v 0 h).1
      simp only [Option.some.injEq] at hm1
      omega
    · exact h
  · exact hitung_skor_bad v hlen

/-- C1: for every response vector of exactly 10 integers each in [0,3],
`hitung_skor` returns the sum over all 10 positions of the contribution
`3 - v_i` at the reverse-coded positions 4 and 8 and `v_i` elsewhere,
and this total lies in [0,30]. -/
theorem hitung_skor_spec_sum (v : List Int) (hlen : v.length = 10)
    (hall : ∀ x ∈ v, 0 ≤ x ∧ x ≤ 3) :
    hitung_skor v = some (claimScore v) ∧ 0 ≤ claimScore v ∧ claimScore v ≤ 30 := by
  have h1 := hitung_skor_valid v (by omega) hall
  have h2 := sumFrom_bounds v 0 hall
  rw [sumFrom_eq_claimScore v hlen] at h1 h2
  rw [hlen] at h2
  refine ⟨h1, h2.1, ?_⟩
  have h30 := h2.2
  norm_num at h30
  exact h30

theorem hitung_skor_spec_sum_witness :
    hitung_skor [0, 1, 2, 3, 0, 1, 2, 3, 0, 1] =
      some (claimScore [0, 1, 2, 3, 0, 1, 2, 3, 0, 1]) ∧
    0 ≤ claimScore [0, 1, 2, 3, 0, 1, 2, 3, 0, 1] ∧
    claimScore [0, 1, 2, 3, 0, 1, 2, 3, 0, 1] ≤ 30 :=
  hitung_skor_spec_sum [0, 1, 2, 3, 0, 1, 2, 3, 0, 1] (by decide) (by decide)

/-- C5: the all-zero input yields score 6 and the all-max input yields
score 24. -/
theorem hitung_skor_boundary_values :
    hitung_skor [0, 0, 0, 0, 0, 0, 0, 0, 0, 0] = some 6 ∧
    hitung_skor [3, 3, 3, 3, 3, 3, 3, 3, 3, 3] = some 24 :=
  ⟨rfl, rfl⟩

/-- C8: the scorer is deterministic and side-effect free — two runs of
`hitung_skor` on the same input vector yield the same result. -/
theorem hitung_skor_deterministic (v : List Int) (r1 r2 : Option Int)
    (h1 : hitung_skor v = r1) (h2 : hitung_skor v = r2) : r1 = r2 := by
  rw [← h1, ← h2]

theorem hitung_skor_deterministic_witness : (some 6 : Option Int) = some 6 :=
  hitung_skor_deterministic [0, 0, 0, 0, 0, 0, 0, 0, 0, 0] (some 6) (some 6) rfl rfl

/-- C9: `hitung_skor` returns -1 exactly when some element of its input
lies outside [0,3], and on all-valid input the result is non-negative,
so the -1 sentinel never collides with a legitimate score. -/
theorem hitung_skor_sentinel (v : List Int) (hlen : v.length ≤ 10) :
    ((hitung_skor v = some (-1)) ↔ ∃ x ∈ v, x < 0 ∨ 3 < x) ∧
    ((∀ x ∈ v, 0 ≤ x ∧ x ≤ 3) → ∃ s, hitung_skor v = some s ∧ 0 ≤ s) := by
  refine ⟨hitung_skor_eq_neg_one_iff v hlen, fun hall => ?_⟩
  exact ⟨sumFrom v 0, hitung_skor_valid v hlen hall, (sumFrom_bounds v 0 hall).1⟩

theorem hitung_skor_sentinel_witness :
    ((hitung_skor [5, 0, 0] = some (-1)) ↔ ∃ x ∈ [(5 : Int), 0, 0], x < 0 ∨ 3 < x) ∧
    ((∀ x ∈ [(5 : Int), 0, 0], 0 ≤ x ∧ x ≤ 3) →
      ∃ s, hitung_skor [5, 0, 0] = some s ∧ 0 ≤ s) :=
  hitung_skor_sentinel [5, 0, 0] (by decide)

/-- C10: `REVERSE_FLAGS` has exactly 10 entries, and whenever the input
vector has at most 10 elements every flag access of `hitung_skor` is in
bounds (the run never hits the `none` marking undefined behaviour);
`main` establishes this precondition since parsing yields exactly as
many values as there are arguments. -/
theorem reverse_flags_access_in_bounds :
    REVERSE_FLAGS.length = 10 ∧
    (∀ v : List Int, v.length ≤ 10 → (hitung_skor v).isSome) ∧
    (∀ (args : List String) (vals : List Int),
      parseArgs args = .ok vals → vals.length = args.length) :=
  ⟨rfl, hitung_skor_isSome, fun args vals h => parseArgsFrom_ok_length args 1 vals h⟩

theorem reverse_flags_access_in_bounds_witness :
    (hitung_skor [0, 1, 2, 3, 0, 1, 2, 3, 0]).isSome :=
  reverse_flags_access_in_bounds.2.1 [0, 1, 2, 3, 0, 1, 2, 3, 0] (by decide)
/-- C2: with 10 arguments that all parse as integers, if some parsed
value lies outside [0,3] then the program reports an out-of-range error
citing the first (left-to-right) out-of-range value, exits with status
1, and prints nothing to standard output. -/
theorem runMain_out_of_range_first (args : List String) (vals : List Int)
    (hlen : args.length = 10) (hparse : parseArgs args = .ok vals)
    (hbad : ∃ x ∈ vals, x < 0 ∨ 3 < x) :
    ∃ k v, k < vals.length ∧ vals.getD k 0 = v ∧ (v < 0 ∨ 3 < v) ∧
      (∀ j, j < k → 0 ≤ vals.getD j 0 ∧ vals.getD j 0 ≤ 3) ∧
      runMain args = some ⟨1, none, some (.outOfRange v)⟩ := by
  have hvlen : vals.length = 10 := by
    rw [parseArgsFrom_ok_length args 1 vals hparse, hlen]
  obtain ⟨k, v, hfind, hk, hget, hvb, hfirst⟩ := find_first_bad vals hbad
  refine ⟨k, v, hk, hget, hvb, hfirst, ?_⟩
  have hsk := hitung_skor_bad vals (by omega) hbad
  simp only [runMain, if_neg (show ¬args.length ≠ 10 by omega), hparse, hsk,
    if_true, hfind]

theorem runMain_out_of_range_first_witness :
    ∃ k v, k < [(0 : Int), 0, 0, 0, 0, 0, 0, 0, 0, 4].length ∧
      [(0 : Int), 0, 0, 0, 0, 0, 0, 0, 0, 4].getD k 0 = v ∧ (v < 0 ∨ 3 < v) ∧
      (∀ j, j < k → 0 ≤ [(0 : Int), 0, 0, 0, 0, 0, 0, 0, 0, 4].getD j 0 ∧
        [(0 : Int), 0, 0, 0, 0, 0, 0, 0, 0, 4].getD j 0 ≤ 3) ∧
      runMain ["0", "0", "0", "0", "0", "0", "0", "0", "0", "4"] =
        some ⟨1, none, some (.outOfRange v)⟩ :=
  runMain_out_of_range_first ["0", "0", "0", "0", "0", "0", "0", "0", "0", "4"]
    [0, 0, 0, 0, 0, 0, 0, 0, 0, 4] (by decide) (by rfl) ⟨4, by decide, by decide⟩

/-- C6: standard output either carries a single complete valid score
(with exit status 0 and no stderr message) or carries nothing (exit
status 1 with an error message on stderr); no partial result is ever
emitted. -/
theorem runMain_output_discipline (args : List String) (r : RunResult)
    (h : runMain args = some r) :
    (r.exitCode = 0 ∧ (∃ s, r.stdout = some s ∧ 0 ≤ s ∧ s ≤ 30) ∧
      r.stderrMsg = none) ∨
    (r.exitCode = 1 ∧ r.stdout = none ∧ r.stderrMsg ≠ none) := by
  rcases runMain_shape args r h with ⟨n, rfl⟩ | ⟨pos, lit, rfl⟩ | ⟨v, rfl⟩ |
    ⟨s, rfl, hs0, hs30⟩
  · exact Or.inr ⟨rfl, rfl, by simp⟩
  · exact Or.inr ⟨rfl, rfl, by simp⟩
  · exact Or.inr ⟨rfl, rfl, by simp⟩
  · exact Or.inl ⟨rfl, ⟨s, rfl, hs0, hs30⟩, rfl⟩

theorem runMain_output_discipline_witness :
    ((⟨0, some 12, none⟩ : RunResult).exitCode = 0 ∧
      (∃ s, (⟨0, some 12, none⟩ : RunResult).stdout = some s ∧ 0 ≤ s ∧ s ≤ 30) ∧
      (⟨0, some 12, none⟩ : RunResult).stderrMsg = none) ∨
    ((⟨0, some 12, none⟩ : RunResult).exitCode = 1 ∧
      (⟨0, some 12, none⟩ : RunResult).stdout = none ∧
      (⟨0, some 12, none⟩ : RunResult).stderrMsg ≠ none) :=
  runMain_output_discipline ["1", "1", "1", "1", "1", "1", "1", "1", "1", "1"]
    ⟨0, some 12, none⟩ (by rfl)

/-- C7: the internal fallback branch is unreachable — whenever
`hitung_skor` signals failure on a 10-element vector, the re-scan in
`main` finds an out-of-range element, and no run of `main` ever emits
the generic internal-error message. -/
theorem fallback_unreachable :
    (∀ vals : List Int, vals.length = 10 → hitung_skor vals = some (-1) →
      (vals.find? (fun x => decide (x < 0 ∨ 3 < x))).isSome) ∧
    (∀ (args : List String) (r : RunResult), runMain args = some r →
      r.stderrMsg ≠ some .internal) := by
  constructor
  · intro vals hlen hm1
    have hbad : ∃ x ∈ vals, x < 0 ∨ 3 < x :=
      ((hitung_skor_eq_neg_one_iff vals (by omega)).mp hm1)
    obtain ⟨k, v, hfind, _⟩ := find_first_bad vals hbad
    rw [hfind]
    rfl
  · intro args r h
    rcases runMain_shape args r h with ⟨n, rfl⟩ | ⟨pos, lit, rfl⟩ | ⟨v, rfl⟩ |
      ⟨s, rfl, _, _⟩ <;> simp

theorem fallback_unreachable_witness :
    (([(0 : Int), 0, 0, 0, 0, 0, 0, 0, 0, 4].find?
      (fun x => decide (x < 0 ∨ 3 < x))).isSome) :=
  fallback_unreachable.1 [0, 0, 0, 0, 0, 0, 0, 0, 0, 4] (by decide) (by rfl)
